import Mathlib

/-!
The nats-kafka bridge: benchmark harness and KafkaToNATS connector.

A shallow embedding of `performance/full_testenv/main.go` (the functions
`startBridge` and `main`) and of the connector behaviour exercised by
`server/core/kafka2nats_test.go`.

* Go's `int` is a 64-bit two's-complement integer: values are `Int`, and every
  arithmetic result is reduced with `wrapInt`.
* `log.Fatalf` and a run-time panic end the process: they are the error side
  of `Except Abort`.
* A `[]byte` is a `List UInt8`; a Go `string` is a `String`, and `[]byte(s)` is
  its UTF-8 encoding.
-/

namespace NatsKafka

/-! ## Go integers -/

/-- Smallest value of Go's 64-bit `int`. -/
def minInt : Int := -9223372036854775808

/-- Largest value of Go's 64-bit `int`. -/
def maxInt : Int := 9223372036854775807

/-- Reduction of an integer to the 64-bit two's-complement range. -/
def wrapInt (x : Int) : Int :=
  (x + 9223372036854775808) % 18446744073709551616 - 9223372036854775808

/-- Ways in which the process ends abnormally. -/
inductive Abort where
  | divideByZero
  | fatal (line : String)
  deriving DecidableEq, Repr

deriving instance DecidableEq for Except

/-- Go's `a / b` on `int`: truncated quotient, run-time panic when `b` is zero. -/
def goDiv (a b : Int) : Except Abort Int :=
  if b = 0 then .error .divideByZero else .ok (wrapInt (Int.tdiv a b))

/-- Go's `a % b` on `int`: remainder with the sign of `a`, panic when `b` is zero. -/
def goMod (a b : Int) : Except Abort Int :=
  if b = 0 then .error .divideByZero else .ok (wrapInt (Int.tmod a b))

/-- Go's `a * b` on `int`. -/
def goMul (a b : Int) : Int := wrapInt (a * b)

/-- Go's `a + b` on `int`. -/
def goAdd (a b : Int) : Int := wrapInt (a + b)

/-! ## Strings and bytes -/

/-- Go's `[]byte(s)`: the UTF-8 bytes of the string. -/
def bytesOf (s : String) : List UInt8 :=
  s.data.flatMap String.utf8EncodeChar

/-- Go's `strings.Repeat(s, count)` for a non-negative count. -/
def stringsRepeat (s : String) : Nat → String
  | 0 => ""
  | n + 1 => stringsRepeat s n ++ s

/-- Go's `len` of a byte slice, as an `int`. -/
def goLen (b : List UInt8) : Int := (b.length : Int)

/-! ## The benchmark `main` (performance/full_testenv/main.go) -/

/-- A `kafka.Message` with the two fields the benchmark fills in. -/
structure Message where
  Key : List UInt8
  Value : List UInt8
  deriving DecidableEq, Repr

/-- The string `msgString := strings.Repeat("stannats", 128)`. -/
def msgString : String := stringsRepeat "stannats" 128

/-- The payload `msg := []byte(msgString)`. -/
def msg : List UInt8 := bytesOf msgString

/-- The payload size `msgLen := len(msg)`. -/
def msgLen : Int := goLen msg

/-- The progress interval `interval := int(iterations / 10)`. -/
def interval (iterations : Int) : Int := wrapInt (Int.tdiv iterations 10)

/-- Lines written with `log.Printf` by the benchmark. -/
inductive LogLine where
  | receivedCount (count : Int)
  | sendCount (topic : String) (count : Int)
  deriving DecidableEq, Repr

/-- What the send loop has done so far: the batches handed to
`writer.WriteMessages` that were accepted, oldest first, and the log. -/
structure SendState where
  written : List (List Message)
  log : List LogLine
  deriving DecidableEq, Repr

/-- The inner loop `for j := 0; j < chunk; j++ { msgs = append(msgs, ...) }`,
with `n` iterations left. -/
def buildBatch (topic : String) (payload : List UInt8) : Nat → List Message → List Message
  | 0, msgs => msgs
  | n + 1, msgs =>
    buildBatch topic payload n (msgs ++ [{ Key := bytesOf topic, Value := payload }])

/-- The body of `for i := 0; i < iterations/chunk; i++`, with `n` iterations
left. `writeErr k` is the error, if any, that the `k`-th call of
`writer.WriteMessages` returns (the Kafka writer is outside the program). -/
def sendLoopFrom (writeErr : Nat → Option String) (topic : String) (payload : List UInt8)
    (iterations chunk : Int) : Nat → Int → SendState → SendState × Option Abort
  | 0, _, st => (st, none)
  | n + 1, i, st =>
    let msgs := buildBatch topic payload chunk.toNat []
    match writeErr st.written.length with
    | some e => (st, some (.fatal ("error putting messages on topic, " ++ e)))
    | none =>
      let st1 : SendState := { st with written := st.written ++ [msgs] }
      match goMod (goMul i chunk) (interval iterations) with
      | .error a => (st1, some a)
      | .ok r =>
        let st2 : SendState :=
          if r = 0 then
            { st1 with log := st1.log ++ [.sendCount topic (goMul (goAdd i 1) chunk)] }
          else st1
        sendLoopFrom writeErr topic payload iterations chunk n (goAdd i 1) st2

/-- The send loop of `main`: the bound `iterations/chunk` panics when `chunk`
is zero, otherwise the body runs for `i = 0, ..., iterations/chunk - 1`. -/
def sendLoop (writeErr : Nat → Option String) (topic : String) (payload : List UInt8)
    (iterations chunk : Int) : SendState × Option Abort :=
  match goDiv iterations chunk with
  | .error a => ({ written := [], log := [] }, some a)
  | .ok q =>
    sendLoopFrom writeErr topic payload iterations chunk q.toNat 0 { written := [], log := [] }

/-- A Kafka writer whose every `WriteMessages` succeeds. -/
def noWriteErr : Nat → Option String := fun _ => none

/-- Number of messages in the accepted batches. -/
def totalWritten (st : SendState) : Nat := (st.written.map List.length).sum

/-- The payloads of the messages in the accepted batches, in the order written:
what the topic holds for the bridge to forward to the subscriber. -/
def writtenValues (st : SendState) : List (List UInt8) :=
  st.written.flatten.map Message.Value

/-- State owned by the subscriber callback: the captured `count`, the values
sent on the `done` channel, and the log. -/
structure RecvState where
  count : Int
  done : List Bool
  log : List LogLine
  deriving DecidableEq, Repr

/-- State before the first delivery: `count := 0`, nothing sent on `done`. -/
def recvInit : RecvState := { count := 0, done := [], log := [] }

/-- The callback passed to `nc.Subscribe`, run on one delivery with payload `data`. -/
def onMessage (iterations : Int) (data : List UInt8) (st : RecvState) :
    RecvState × Option Abort :=
  let st1 : RecvState := { st with count := goAdd st.count 1 }
  match goMod st1.count (interval iterations) with
  | .error a => (st1, some a)
  | .ok r =>
    let st2 : RecvState :=
      if r = 0 then { st1 with log := st1.log ++ [.receivedCount st1.count] } else st1
    if goLen data ≠ msgLen then
      (st2, some (.fatal ("received message that is the wrong size "
        ++ toString (goLen data) ++ " != " ++ toString msgLen)))
    else if st2.count = iterations then
      ({ st2 with done := st2.done ++ [true] }, none)
    else (st2, none)

/-- The callback run on a sequence of deliveries, in order; the process ends
at the first delivery that aborts. -/
def deliver (iterations : Int) : List (List UInt8) → RecvState → RecvState × Option Abort
  | [], st => (st, none)
  | d :: ds, st =>
    match onMessage iterations d st with
    | (st1, none) => deliver iterations ds st1
    | (st1, some a) => (st1, some a)

/-! ## `startBridge` (performance/full_testenv/main.go)

The packages `conf` and `core` are outside the sources: the configuration
types carry the fields the sources name plus a field `rest` for the others,
and the bridge's methods are taken as parameters. -/

/-- A `conf.ConnectorConfig`. -/
structure ConnectorConfig (ρ : Type) where
  Type_ : String
  Subject : String
  Topic : String
  GroupID : String
  Brokers : List String
  rest : ρ
  deriving DecidableEq, Repr

/-- The fields of `config.Logging` that `startBridge` assigns. -/
structure LoggingConfig where
  Debug : Bool
  Trace : Bool
  Colors : Bool
  deriving DecidableEq, Repr

/-- A `conf.HTTPConfig` literal: only `HTTPPort` is given a value. -/
structure HTTPConfig where
  HTTPPort : Int
  deriving DecidableEq, Repr

/-- A `conf.NATSConfig` literal with the four fields `startBridge` gives. -/
structure NATSConfig where
  Servers : List String
  ConnectTimeout : Int
  ReconnectWait : Int
  MaxReconnects : Int
  deriving DecidableEq, Repr

/-- A `conf.NATSKafkaBridgeConfig`. -/
structure BridgeConfig (ρ κ : Type) where
  Logging : LoggingConfig
  Monitoring : HTTPConfig
  NATS : NATSConfig
  Connect : List (ConnectorConfig ρ)
  rest : κ
  deriving DecidableEq, Repr

/-- The methods of `core.NATSKafkaBridge` that `startBridge` calls, on a bridge
state `β`, with errors `ε` (`none` is Go's `nil` error). -/
structure BridgeAPI (β ε ρ κ : Type) where
  NewNATSKafkaBridge : β
  InitializeFromConfig : β → BridgeConfig ρ κ → β × Option ε
  Start : β → β × Option ε
  Stop : β → β

/-- A method call made on the bridge. -/
inductive Call where
  | initializeFromConfig
  | start
  | stop
  deriving DecidableEq, Repr

/-- What a call of `startBridge` leaves behind: the two return values (`none`
is `nil`), the contents of the caller's slice, the configuration handed to
`InitializeFromConfig`, the method calls in order, and the state of the
bridge object. -/
structure StartBridgeResult (β ε ρ κ : Type) where
  bridge : Option β
  err : Option ε
  connections : List (ConnectorConfig ρ)
  config : BridgeConfig ρ κ
  calls : List Call
  final : β

/-- The loop `for i, c := range connections { c.Brokers = ...; connections[i] = c }`
at index `i` with `n` iterations left. -/
def setBrokersFrom {ρ : Type} (kafkaHostPort : String) :
    Nat → Nat → List (ConnectorConfig ρ) → List (ConnectorConfig ρ)
  | 0, _, connections => connections
  | n + 1, i, connections =>
    match connections[i]? with
    | none => connections
    | some c =>
      setBrokersFrom kafkaHostPort n (i + 1)
        (connections.set i { c with Brokers := [kafkaHostPort] })

/-- The function `startBridge`; `defaultConfig` is the value of
`conf.DefaultBridgeConfig()`, `natsURL` and `kafkaHostPort` the globals. -/
def startBridge {β ε ρ κ : Type} (api : BridgeAPI β ε ρ κ) (defaultConfig : BridgeConfig ρ κ)
    (natsURL kafkaHostPort : String) (connections : List (ConnectorConfig ρ)) :
    StartBridgeResult β ε ρ κ :=
  let config : BridgeConfig ρ κ := defaultConfig
  let config := { config with Logging := { config.Logging with Debug := true } }
  let config := { config with Logging := { config.Logging with Trace := true } }
  let config := { config with Logging := { config.Logging with Colors := false } }
  let config := { config with Monitoring := { HTTPPort := -1 } }
  let config := { config with NATS :=
    { Servers := [natsURL], ConnectTimeout := 2000, ReconnectWait := 2000, MaxReconnects := 5 } }
  let connections := setBrokersFrom kafkaHostPort connections.length 0 connections
  let config := { config with Connect := connections }
  let bridge := api.NewNATSKafkaBridge
  match api.InitializeFromConfig bridge config with
  | (bridge, some err) =>
    { bridge := none, err := some err, connections := connections, config := config,
      calls := [.initializeFromConfig], final := bridge }
  | (bridge, none) =>
    match api.Start bridge with
    | (bridge, some err) =>
      { bridge := none, err := some err, connections := connections, config := config,
        calls := [.initializeFromConfig, .start, .stop], final := api.Stop bridge }
    | (bridge, none) =>
      { bridge := some bridge, err := none, connections := connections, config := config,
        calls := [.initializeFromConfig, .start], final := bridge }

/-! ## The connector engine

The engine (`server/core`: the bridge, its connectors and their statistics)
is exercised by `kafka2nats_test.go` and by the benchmark, but its code is not
among the sources. The definitions of this section follow the specification's
description of it (§3, §4.1, §4.2, §4.4). -/

/-- Modelled from the spec: the `kind` of a RouteConfig (§3), whose declaration
in `server/conf` is missing: the two directions and their group variants. -/
inductive RouteKind where
  | SourceToDest
  | DestToSource
  | SourceToDestGroup
  | DestToSourceGroup
  deriving DecidableEq, Repr

/-- Modelled from the spec: a RouteConfig (§3), missing with `server/conf`: kind,
source address, destination address and optional consumer group. -/
structure RouteConfig where
  kind : RouteKind
  sourceAddress : String
  destAddress : String
  consumerGroup : Option String
  deriving DecidableEq, Repr

/-- Modelled from the spec: the lifecycle states of a Connector (§4.2), missing
with `server/core`. -/
inductive Lifecycle where
  | Stopped
  | Connecting
  | Running
  | Disconnected
  | Reconnecting
  | Failed
  deriving DecidableEq, Repr

/-- Modelled from the spec: the per-connector ConnectionStats (§3), missing
with `server/core`. -/
structure ConnectionStats where
  MessagesIn : Nat
  MessagesOut : Nat
  BytesIn : Nat
  BytesOut : Nat
  Connects : Nat
  Disconnects : Nat
  Connected : Bool
  deriving DecidableEq, Repr

/-- Modelled from the spec: the runtime Connector (§3), missing with
`server/core`: its route, lifecycle state and stats entry. -/
structure Connector where
  route : RouteConfig
  state : Lifecycle
  stats : ConnectionStats
  deriving DecidableEq, Repr

/-- Modelled from the spec: a message published on the destination substrate
(§4.2 forwarding loop), missing with `server/core`: destination address and
payload. -/
structure DestMsg where
  address : String
  data : List UInt8
  deriving DecidableEq, Repr

/-- Modelled from the spec: the outcomes of a destination publish (§4.2, §7),
missing with `server/core`: acknowledged, failed on a connection problem
(ConnectionError), or failed for another reason (ForwardError). -/
inductive PublishResult where
  | acked
  | connectionLost
  | rejected
  deriving DecidableEq, Repr

/-- Modelled from the spec: the stats entry created at Initialize time (§4.4),
missing with `server/core`: all counters zero, not connected. -/
def ConnectionStats.zero : ConnectionStats :=
  { MessagesIn := 0, MessagesOut := 0, BytesIn := 0, BytesOut := 0,
    Connects := 0, Disconnects := 0, Connected := false }

/-- Modelled from the spec: construction of a Connector by Initialize (§4.1),
missing with `server/core`: state `Stopped`, no traffic. -/
def Connector.create (r : RouteConfig) : Connector :=
  { route := r, state := .Stopped, stats := ConnectionStats.zero }

/-- Modelled from the spec: the transition `Stopped → Connecting → Running`
(§4.2), missing with `server/core`: on success a Connect event is recorded and
connected becomes true; `connectOk = false` stands for retries exhausted, which
ends in `Failed`. -/
def Connector.start (c : Connector) (connectOk : Bool) : Connector :=
  match c.state with
  | .Stopped =>
    if connectOk then
      { c with state := .Running,
               stats := { c.stats with Connects := c.stats.Connects + 1, Connected := true } }
    else { c with state := .Failed }
  | _ => c

/-- Modelled from the spec: one round of the forwarding loop (§4.2), missing
with `server/core`: messages-in and bytes-in grow on receipt, the payload is
copied unchanged to the destination address, messages-out and bytes-out grow
only after the publish is acknowledged; a connection failure records a
Disconnect and leaves `Running`; another failure drops the message and the loop
goes on. The second component is what was published. -/
def Connector.forward (c : Connector) (payload : List UInt8) (res : PublishResult) :
    Connector × List DestMsg :=
  match c.state with
  | .Running =>
    let s1 : ConnectionStats :=
      { c.stats with MessagesIn := c.stats.MessagesIn + 1,
                     BytesIn := c.stats.BytesIn + payload.length }
    match res with
    | .acked =>
      ({ c with stats := { s1 with MessagesOut := s1.MessagesOut + 1,
                                   BytesOut := s1.BytesOut + payload.length } },
       [{ address := c.route.destAddress, data := payload }])
    | .connectionLost =>
      ({ c with state := .Disconnected,
                stats := { s1 with Disconnects := s1.Disconnects + 1, Connected := false } }, [])
    | .rejected => ({ c with stats := s1 }, [])
  | _ => (c, [])

/-- Modelled from the spec: `checkConnections()` (§4.2), missing with
`server/core`: when a handle of a running connector is not alive, a Disconnect
is recorded and reconnection starts; otherwise nothing changes. -/
def Connector.checkConnections (c : Connector) (sourceAlive destAlive : Bool) : Connector :=
  match c.state with
  | .Running =>
    if sourceAlive && destAlive then c
    else
      { c with state := .Reconnecting,
               stats := { c.stats with Disconnects := c.stats.Disconnects + 1,
                                       Connected := false } }
  | _ => c

/-- Modelled from the spec: what happens to a running connector (§4.2, §4.3),
missing with `server/core`: a source message arrives and its publish has the
given result, or the health monitor checks the two handles. -/
inductive Event where
  | message (payload : List UInt8) (res : PublishResult)
  | check (sourceAlive destAlive : Bool)
  deriving DecidableEq, Repr

/-- Modelled from the spec: an event with no induced failure (§8), the engine
being missing: an acknowledged publish, or a check that finds both handles
alive. -/
def Event.clean : Event → Bool
  | .message _ .acked => true
  | .message _ _ => false
  | .check s d => s && d

/-- Modelled from the spec: the connector's reaction to one event (§4.2), missing
with `server/core`. -/
def Connector.step (c : Connector) : Event → Connector × List DestMsg
  | .message payload res => c.forward payload res
  | .check s d => (c.checkConnections s d, [])

/-- Modelled from the spec: the connector's reaction to a sequence of events in
order (§4.2, §5: messages are forwarded in the order received), missing with
`server/core`; the second component is everything published, oldest first. -/
def Connector.run (c : Connector) : List Event → Connector × List DestMsg
  | [] => (c, [])
  | e :: es =>
    let r1 := c.step e
    let r2 := Connector.run r1.1 es
    (r2.1, r1.2 ++ r2.2)

/-- Modelled from the spec: the payloads of the message events of a sequence,
in order. -/
def Event.payloads : List Event → List (List UInt8)
  | [] => []
  | .message p _ :: es => p :: Event.payloads es
  | .check _ _ :: es => Event.payloads es

/-- Modelled from the spec: the errors returned synchronously by Initialize and
Start (§7), missing with `server/core`: ConfigError and StartError. -/
inductive BridgeError where
  | ConfigError
  | StartError
  deriving DecidableEq, Repr

/-- Modelled from the spec: the Bridge Orchestrator's state (§3, §4.1), missing
with `server/core`: its connectors in configuration order. -/
structure Bridge where
  connectors : List Connector
  deriving DecidableEq, Repr

/-- Modelled from the spec: the RouteConfig invariant (§3), missing with
`server/conf`: source and destination address are non-empty. -/
def RouteConfig.valid (r : RouteConfig) : Bool :=
  r.sourceAddress != "" && r.destAddress != ""

/-- Modelled from the spec: `Initialize(config)` (§4.1), missing with
`server/core`: fails on any invalid route, otherwise builds one Connector per
route without starting traffic. -/
def Bridge.create (routes : List RouteConfig) : Except BridgeError Bridge :=
  if routes.all RouteConfig.valid then .ok { connectors := routes.map Connector.create }
  else .error .ConfigError

/-- Modelled from the spec: `Start()` (§4.1), missing with `server/core`:
all-or-nothing; `connectOk r` tells whether the connector of route `r`
establishes its initial connections. -/
def Bridge.start (b : Bridge) (connectOk : RouteConfig → Bool) : Except BridgeError Bridge :=
  if b.connectors.all (fun c => connectOk c.route) then
    .ok { connectors := b.connectors.map (fun c => c.start true) }
  else .error .StartError

/-- Modelled from the spec: `SafeStats()` (§4.1), missing with `server/core`: a
copy of every connector's ConnectionStats, in configuration order. -/
def Bridge.SafeStats (b : Bridge) : List ConnectionStats :=
  b.connectors.map (fun c => c.stats)

/-- Modelled from the spec: `checkConnections()` over the bridge (§4.3), missing
with `server/core`; `alive r` gives the liveness of the two handles of the
connector of route `r`. -/
def Bridge.checkConnections (b : Bridge) (alive : RouteConfig → Bool × Bool) : Bridge :=
  { connectors := b.connectors.map (fun c => c.checkConnections (alive c.route).1 (alive c.route).2) }

/-- Modelled from the spec: consumption of one source message by the
connectors (§4.2, grouped variants), missing with `server/core`: every running
connector whose source address is the message's address receives it, except
that among the connectors bound to one consumer group only the first does.
`served` lists the groups that already received the message. -/
def consumeFrom (address : String) (payload : List UInt8) (publish : RouteConfig → PublishResult) :
    List String → List Connector → List Connector × List DestMsg
  | _, [] => ([], [])
  | served, c :: cs =>
    if c.route.sourceAddress = address ∧ c.state = .Running then
      match c.route.consumerGroup with
      | some g =>
        if g ∈ served then
          let rest := consumeFrom address payload publish served cs
          (c :: rest.1, rest.2)
        else
          let r1 := c.forward payload (publish c.route)
          let rest := consumeFrom address payload publish (g :: served) cs
          (r1.1 :: rest.1, r1.2 ++ rest.2)
      | none =>
        let r1 := c.forward payload (publish c.route)
        let rest := consumeFrom address payload publish served cs
        (r1.1 :: rest.1, r1.2 ++ rest.2)
    else
      let rest := consumeFrom address payload publish served cs
      (c :: rest.1, rest.2)

/-- Modelled from the spec: sending the payloads, in order, to a source address
while the bridge runs (§4.2, §5), the engine being missing; the second
component is everything published on the destination substrate. -/
def Bridge.sendAll (b : Bridge) (address : String) (publish : RouteConfig → PublishResult) :
    List (List UInt8) → Bridge × List DestMsg
  | [] => (b, [])
  | p :: ps =>
    let r1 := consumeFrom address p publish [] b.connectors
    let r2 := Bridge.sendAll { connectors := r1.1 } address publish ps
    (r2.1, r1.2 ++ r2.2)

/-- Modelled from the spec: the payloads a subscriber of `subject` receives from
the destination substrate, in order (§8, Scenario A). -/
def received (subject : String) (out : List DestMsg) : List (List UInt8) :=
  (out.filter (fun m => m.address = subject)).map (fun m => m.data)

/-- Modelled from the spec: what a scenario observes (§8): the payloads
delivered to the subscriber and the stats snapshot. -/
structure Observed where
  deliveries : List (List UInt8)
  stats : List ConnectionStats
  deriving DecidableEq, Repr

/-- Modelled from the spec: Scenarios A and B (§8), as the tests of
`kafka2nats_test.go` run them against the missing engine: a bridge with the one
route `r` is initialised and started, `checkConnections` is called when `check`
is set, the payloads are sent to the route's source address with no induced
failure, and the subscriber of the route's destination address and `SafeStats`
are read. -/
def scenario (r : RouteConfig) (check : Bool) (payloads : List (List UInt8)) :
    Except BridgeError Observed :=
  match Bridge.create [r] with
  | .error e => .error e
  | .ok b0 =>
    match b0.start (fun _ => true) with
    | .error e => .error e
    | .ok b1 =>
      let b2 := if check then b1.checkConnections (fun _ => (true, true)) else b1
      let r3 := b2.sendAll r.sourceAddress (fun _ => .acked) payloads
      .ok { deliveries := received r.destAddress r3.2, stats := r3.1.SafeStats }

/-- The payload `"hello world"` of the tests. -/
def helloWorld : List UInt8 := bytesOf "hello world"

/-- The route of `TestSimpleSendOnKafkaReceiveOnNATS`, with fixed names in place
of the random ones. -/
def routeA : RouteConfig :=
  { kind := .SourceToDest, sourceAddress := "topicA", destAddress := "subjA",
    consumerGroup := none }

/-- The receive `<-done` of `main`: the first value sent on `done`, or `none`
when nothing was sent and the receive blocks. -/
def waitDone (st : RecvState) : Option Bool := st.done.head?

/-- A bridge whose state is the list of the method calls made on it, and whose
`InitializeFromConfig` and `Start` return the given errors. -/
def recordingBridge (initErr startErr : Option String) :
    BridgeAPI (List Call) String Unit Unit :=
  { NewNATSKafkaBridge := []
    InitializeFromConfig := fun b _ => (b ++ [.initializeFromConfig], initErr)
    Start := fun b => (b ++ [.start], startErr)
    Stop := fun b => b ++ [.stop] }

/-- A default configuration for the examples. -/
def sampleConfig : BridgeConfig Unit Unit :=
  { Logging := { Debug := false, Trace := false, Colors := true }
    Monitoring := { HTTPPort := 9222 }
    NATS := { Servers := [], ConnectTimeout := 5000, ReconnectWait := 1000, MaxReconnects := 0 }
    Connect := []
    rest := () }

/-- The connector list of the benchmark, with fixed names in place of the
random ones. -/
def sampleConnect : List (ConnectorConfig Unit) :=
  [{ Type_ := "KafkaToNATS", Subject := "subjA", Topic := "topicA", GroupID := "",
     Brokers := [], rest := () }]

/-! ## Lemmas: integers and bytes -/

theorem wrapInt_of_range {x : Int} (hlo : minInt ≤ x) (hhi : x ≤ maxInt) : wrapInt x = x := by
  unfold minInt at hlo
  unfold maxInt at hhi
  unfold wrapInt
  omega

theorem interval_of_nonneg {iterations : Int} (h0 : 0 ≤ iterations)
    (hmax : iterations ≤ maxInt) : interval iterations = iterations / 10 := by
  unfold interval
  rw [Int.tdiv_eq_ediv h0 (by decide)]
  apply wrapInt_of_range
  · unfold minInt; omega
  · unfold maxInt at *; omega

theorem interval_ne_zero_iff {iterations : Int} (h0 : 0 ≤ iterations)
    (hmax : iterations ≤ maxInt) : interval iterations ≠ 0 ↔ 10 ≤ iterations := by
  rw [interval_of_nonneg h0 hmax]
  omega

theorem goMod_ok_of_ne_zero (a : Int) {b : Int} (hb : b ≠ 0) :
    goMod a b = .ok (wrapInt (Int.tmod a b)) := by
  simp [goMod, hb]

theorem bytesOf_append (s t : String) : bytesOf (s ++ t) = bytesOf s ++ bytesOf t := by
  simp [bytesOf]

theorem bytesOf_stringsRepeat_length (s : String) (n : Nat) :
    (bytesOf (stringsRepeat s n)).length = n * (bytesOf s).length := by
  induction n with
  | zero => simp [stringsRepeat, bytesOf]
  | succ k ih =>
    rw [stringsRepeat, bytesOf_append, List.length_append, ih]
    ring

theorem msg_length : msg.length = 1024 := by
  unfold msg msgString
  rw [bytesOf_stringsRepeat_length]
  decide

theorem msgLen_eq : msgLen = 1024 := by
  unfold msgLen goLen
  rw [msg_length]
  rfl

/-! ## Lemmas: the send loop -/

theorem buildBatch_eq (topic : String) (payload : List UInt8) (n : Nat) (msgs : List Message) :
    buildBatch topic payload n msgs
      = msgs ++ List.replicate n { Key := bytesOf topic, Value := payload } := by
  induction n generalizing msgs with
  | zero => simp [buildBatch]
  | succ k ih =>
    rw [buildBatch, ih, List.replicate_succ]
    simp

theorem mem_buildBatch {topic : String} {payload : List UInt8} {n : Nat} {m : Message}
    (hm : m ∈ buildBatch topic payload n []) :
    m = { Key := bytesOf topic, Value := payload } := by
  rw [buildBatch_eq] at hm
  simp only [List.nil_append] at hm
  exact (List.mem_replicate.mp hm).2

theorem length_buildBatch (topic : String) (payload : List UInt8) (n : Nat) :
    (buildBatch topic payload n []).length = n := by
  rw [buildBatch_eq]
  simp

/-- Every batch present after the loop was either present before it or is the
batch built by the inner loop. -/
theorem mem_written_sendLoopFrom (writeErr : Nat → Option String) (topic : String)
    (payload : List UInt8) (iterations chunk : Int) (n : Nat) (i : Int) (st : SendState)
    (b : List Message)
    (hb : b ∈ (sendLoopFrom writeErr topic payload iterations chunk n i st).1.written) :
    b ∈ st.written ∨ b = buildBatch topic payload chunk.toNat [] := by
  induction n generalizing i st with
  | zero => exact Or.inl (by simpa [sendLoopFrom] using hb)
  | succ k ih =>
    unfold sendLoopFrom at hb
    simp only at hb
    split at hb
    · exact Or.inl hb
    · split at hb
      · simp only [List.mem_append, List.mem_singleton] at hb
        exact hb
      · have h := ih _ _ hb
        split at h <;> simpa [List.mem_append] using h

/-- With a writer that never fails and a non-zero progress interval the loop
runs to its end and appends one batch per iteration. -/
theorem sendLoopFrom_written (writeErr : Nat → Option String) (hw : ∀ k, writeErr k = none)
    (topic : String) (payload : List UInt8) (iterations chunk : Int)
    (hi : interval iterations ≠ 0) (n : Nat) (i : Int) (st : SendState) :
    (sendLoopFrom writeErr topic payload iterations chunk n i st).2 = none ∧
    (sendLoopFrom writeErr topic payload iterations chunk n i st).1.written
      = st.written ++ List.replicate n (buildBatch topic payload chunk.toNat []) := by
  induction n generalizing i st with
  | zero => simp [sendLoopFrom]
  | succ k ih =>
    unfold sendLoopFrom
    simp only [hw, goMod_ok_of_ne_zero _ hi]
    refine ⟨(ih _ _).1, ?_⟩
    rw [(ih _ _).2, List.replicate_succ]
    split <;> simp

theorem sum_map_length_replicate (n c : Nat) (b : List Message) (hb : b.length = c) :
    ((List.replicate n b).map List.length).sum = n * c := by
  induction n with
  | zero => simp
  | succ k ih =>
    rw [List.replicate_succ, List.map_cons, List.sum_cons, ih, hb]
    ring

theorem sendLoopFrom_no_divideByZero (writeErr : Nat → Option String) (topic : String)
    (payload : List UInt8) (iterations chunk : Int) (hi : interval iterations ≠ 0)
    (n : Nat) (i : Int) (st : SendState) :
    (sendLoopFrom writeErr topic payload iterations chunk n i st).2 ≠ some .divideByZero := by
  induction n generalizing i st with
  | zero => simp [sendLoopFrom]
  | succ k ih =>
    unfold sendLoopFrom
    simp only [goMod_ok_of_ne_zero _ hi]
    split
    · simp
    · exact ih _ _

theorem goDiv_of_nonneg {a b : Int} (ha : 0 ≤ a) (hamax : a ≤ maxInt) (hb : 1 ≤ b) :
    goDiv a b = .ok (a / b) := by
  have hq0 : 0 ≤ a / b := Int.ediv_nonneg ha (by omega)
  have hq1 : a / b ≤ a := Int.ediv_le_self b ha
  have hbne : b ≠ 0 := by omega
  simp only [goDiv, hbne, if_false]
  rw [Int.tdiv_eq_ediv ha (by omega), wrapInt_of_range]
  · unfold minInt; omega
  · omega

/-! ## Lemmas: the subscriber callback -/

/-- One delivery of a correctly sized message when the interval is non-zero and
the counter does not overflow. -/
theorem onMessage_sized (iterations : Int) (hi : interval iterations ≠ 0) (d : List UInt8)
    (hd : d.length = 1024) (st : RecvState) (hc0 : 0 ≤ st.count) (hc1 : st.count < maxInt) :
    (onMessage iterations d st).2 = none ∧
    (onMessage iterations d st).1.count = st.count + 1 ∧
    (onMessage iterations d st).1.done
      = st.done ++ (if st.count + 1 = iterations then [true] else []) := by
  have hw : goAdd st.count 1 = st.count + 1 := by
    unfold goAdd
    apply wrapInt_of_range
    · unfold minInt; omega
    · omega
  have hlen : goLen d = msgLen := by
    rw [msgLen_eq]
    unfold goLen
    rw [hd]
    rfl
  unfold onMessage
  simp only [hw, goMod_ok_of_ne_zero _ hi, hlen, ne_eq, not_true_eq_false, if_false]
  by_cases hr : wrapInt (Int.tmod (st.count + 1) (interval iterations)) = 0
  · simp only [hr, if_true]
    by_cases he : st.count + 1 = iterations <;> simp [he]
  · simp only [hr, if_false]
    by_cases he : st.count + 1 = iterations <;> simp [he]

theorem deliver_sized (iterations : Int) (hi : interval iterations ≠ 0) (ds : List (List UInt8))
    (hsz : ∀ d ∈ ds, d.length = 1024) (st : RecvState) (hc0 : 0 ≤ st.count)
    (hc1 : st.count + ds.length ≤ maxInt) :
    (deliver iterations ds st).2 = none ∧
    (deliver iterations ds st).1.count = st.count + ds.length ∧
    (deliver iterations ds st).1.done
      = st.done ++
        (if st.count < iterations ∧ iterations ≤ st.count + ds.length then [true] else []) := by
  induction ds generalizing st with
  | nil =>
    have : ¬ (st.count < iterations ∧ iterations ≤ st.count) := by omega
    simp [deliver, this]
  | cons d ds ih =>
    have hlen : ((d :: ds).length : Int) = (ds.length : Int) + 1 := by simp
    rw [hlen] at hc1 ⊢
    obtain ⟨h1, h2, h3⟩ := onMessage_sized iterations hi d (hsz d (by simp)) st hc0 (by omega)
    have hstep : deliver iterations (d :: ds) st
        = deliver iterations ds (onMessage iterations d st).1 := by
      rw [deliver]
      generalize onMessage iterations d st = r at h1
      obtain ⟨st1, a⟩ := r
      simp only at h1
      subst h1
      rfl
    obtain ⟨k1, k2, k3⟩ := ih (fun x hx => hsz x (by simp [hx])) (onMessage iterations d st).1
      (by omega) (by omega)
    rw [hstep]
    refine ⟨k1, by omega, ?_⟩
    rw [k3, h3, h2, List.append_assoc]
    congr 1
    by_cases e1 : st.count + 1 = iterations
    · have a1 : ¬ (st.count + 1 < iterations ∧ iterations ≤ st.count + 1 + ds.length) := by omega
      have a2 : st.count < iterations ∧ iterations ≤ st.count + (ds.length + 1) := by omega
      simp [e1, a1, a2]
    · by_cases e2 : st.count + 1 < iterations ∧ iterations ≤ st.count + 1 + ds.length
      · have a2 : st.count < iterations ∧ iterations ≤ st.count + (ds.length + 1) := by omega
        simp [e1, e2, a2]
      · have a2 : ¬ (st.count < iterations ∧ iterations ≤ st.count + (ds.length + 1)) := by
          omega
        simp [e1, e2, a2]

/-! ## Theorems: the benchmark -/

/-- What the send loop writes where it runs to its end: for `iterations` 0 or
at least 10 and `chunk >= 1`, with no write failing, `iterations / chunk`
(integer division) batches of exactly `chunk` messages each; the total reaches
`iterations` exactly when `chunk` divides `iterations`. -/
theorem sendLoop_writes_batches (writeErr : Nat → Option String)
    (hw : ∀ k, writeErr k = none) (topic : String) (iterations chunk : Int)
    (h0 : iterations = 0 ∨ 10 ≤ iterations) (hmax : iterations ≤ maxInt) (hc : 1 ≤ chunk) :
    (sendLoop writeErr topic msg iterations chunk).2 = none ∧
    ((sendLoop writeErr topic msg iterations chunk).1.written.length : Int)
      = iterations / chunk ∧
    (∀ b ∈ (sendLoop writeErr topic msg iterations chunk).1.written, (b.length : Int) = chunk) ∧
    (totalWritten (sendLoop writeErr topic msg iterations chunk).1 : Int)
      = iterations / chunk * chunk ∧
    ((totalWritten (sendLoop writeErr topic msg iterations chunk).1 : Int) = iterations
      ↔ chunk ∣ iterations) := by
  have hnn : 0 ≤ iterations := by omega
  have hq0 : 0 ≤ iterations / chunk := Int.ediv_nonneg hnn (by omega)
  have hloop : sendLoop writeErr topic msg iterations chunk
      = sendLoopFrom writeErr topic msg iterations chunk (iterations / chunk).toNat 0
          { written := [], log := [] } := by
    unfold sendLoop
    rw [goDiv_of_nonneg hnn hmax hc]
  have hdvd : iterations / chunk * chunk = iterations ↔ chunk ∣ iterations :=
    ⟨fun h => Dvd.intro_left _ h, fun h => Int.ediv_mul_cancel h⟩
  rw [hloop]
  rcases h0 with h0 | h0
  · subst h0
    simp [sendLoopFrom, totalWritten]
  · have hi := (interval_ne_zero_iff hnn hmax).mpr h0
    obtain ⟨e1, e2⟩ := sendLoopFrom_written writeErr hw topic msg iterations chunk hi
      (iterations / chunk).toNat 0 { written := [], log := [] }
    simp only [List.nil_append] at e2
    have htotal : (totalWritten (sendLoopFrom writeErr topic msg iterations chunk
        (iterations / chunk).toNat 0 { written := [], log := [] }).1 : Int)
        = iterations / chunk * chunk := by
      unfold totalWritten
      rw [e2, sum_map_length_replicate _ chunk.toNat _ (length_buildBatch _ _ _)]
      push_cast
      rw [Int.toNat_of_nonneg hq0, Int.toNat_of_nonneg (by omega)]
    refine ⟨e1, ?_, ?_, htotal, ?_⟩
    · rw [e2, List.length_replicate]
      exact Int.toNat_of_nonneg hq0
    · intro b hb
      rw [e2] at hb
      rw [(List.mem_replicate.mp hb).2, length_buildBatch]
      exact Int.toNat_of_nonneg (by omega)
    · rw [htotal]
      exact hdvd

set_option maxRecDepth 100000 in
/-- C4 (code defect): the program announces, awaits and reports `iterations`
messages, but at `iterations = 15`, `chunk = 2` the send loop ends normally
after 7 batches of 2, that is 14 messages and not 15; the callback, given those
14 payloads, counts 14 and sends nothing on `done`, so the receive `<-done`
never gets a value. A second slip: at `iterations = 5`, `chunk = 1` the
interval is 0 and the loop panics on `(i*chunk) % interval` after one message. -/
theorem sendLoop_drops_remainder :
    ((0 : Int) ≤ 15 ∧ (1 : Int) ≤ 2 ∧
      (sendLoop noWriteErr "topicA" msg 15 2).2 = none ∧
      (sendLoop noWriteErr "topicA" msg 15 2).1.written.length = 7 ∧
      (sendLoop noWriteErr "topicA" msg 15 2).1.written.all (fun b => b.length = 2) = true ∧
      totalWritten (sendLoop noWriteErr "topicA" msg 15 2).1 = 14 ∧
      (totalWritten (sendLoop noWriteErr "topicA" msg 15 2).1 : Int) ≠ 15 ∧
      (deliver 15 (writtenValues (sendLoop noWriteErr "topicA" msg 15 2).1) recvInit).2 = none ∧
      (deliver 15 (writtenValues (sendLoop noWriteErr "topicA" msg 15 2).1) recvInit).1.count
        = 14 ∧
      waitDone (deliver 15 (writtenValues (sendLoop noWriteErr "topicA" msg 15 2).1) recvInit).1
        = none) ∧
    ((0 : Int) ≤ 5 ∧ (1 : Int) ≤ 1 ∧
      (sendLoop noWriteErr "topicA" msg 5 1).2 = some .divideByZero ∧
      totalWritten (sendLoop noWriteErr "topicA" msg 5 1).1 = 1 ∧
      (totalWritten (sendLoop noWriteErr "topicA" msg 5 1).1 : Int) ≠ 5) := by
  decide

/-- C6: every message of every batch written by the send loop has as `Value`
the bytes of "stannats" repeated 128 times, which are 1024 bytes (and `msgLen`
is 1024), and as `Key` the bytes of the topic name. -/
theorem sendLoop_message_fields (writeErr : Nat → Option String) (topic : String)
    (iterations chunk : Int) (b : List Message)
    (hb : b ∈ (sendLoop writeErr topic msg iterations chunk).1.written)
    (m : Message) (hm : m ∈ b) :
    m.Value = bytesOf (stringsRepeat "stannats" 128) ∧ m.Value.length = 1024 ∧
    msgLen = 1024 ∧ m.Key = bytesOf topic := by
  have hbatch : b = buildBatch topic msg chunk.toNat [] := by
    unfold sendLoop at hb
    split at hb
    · simp at hb
    · rcases mem_written_sendLoopFrom _ _ _ _ _ _ _ _ b hb with h | h
      · simp at h
      · exact h
  rw [hbatch] at hm
  rw [mem_buildBatch hm]
  dsimp only
  refine ⟨?_, msg_length, msgLen_eq, Eq.refl _⟩
  unfold msg msgString
  exact Eq.refl _

set_option maxRecDepth 100000 in
/-- C6, witness: the first message of the first batch of a run with 20
iterations in chunks of 2. -/
theorem sendLoop_message_fields_witness :
    ({ Key := bytesOf "topicA", Value := msg } : Message).Value
        = bytesOf (stringsRepeat "stannats" 128) ∧
    ({ Key := bytesOf "topicA", Value := msg } : Message).Value.length = 1024 ∧
    msgLen = 1024 ∧
    ({ Key := bytesOf "topicA", Value := msg } : Message).Key = bytesOf "topicA" :=
  sendLoop_message_fields noWriteErr "topicA" 20 2
    [{ Key := bytesOf "topicA", Value := msg }, { Key := bytesOf "topicA", Value := msg }]
    (by decide) { Key := bytesOf "topicA", Value := msg } (by simp)

/-- C8: for `0 <= iterations`, the interval `iterations / 10` is non-zero
exactly when `iterations >= 10`; so `x % interval`, as evaluated by the
callback on `count` and by the send loop on `i*chunk`, is free of division by
zero exactly when `iterations >= 10`: a delivery to the callback, and a step of
the send loop whose write succeeds, panic on the division exactly when
`iterations < 10`; and `iterations / chunk` is free of it exactly when
`chunk != 0`. -/
theorem interval_division_safe (iterations : Int) (h0 : 0 ≤ iterations)
    (hmax : iterations ≤ maxInt) :
    (interval iterations ≠ 0 ↔ 10 ≤ iterations) ∧
    (∀ x : Int, goMod x (interval iterations) ≠ .error .divideByZero ↔ 10 ≤ iterations) ∧
    (∀ (data : List UInt8) (st : RecvState),
      (onMessage iterations data st).2 ≠ some .divideByZero ↔ 10 ≤ iterations) ∧
    (∀ (writeErr : Nat → Option String) (topic : String) (payload : List UInt8) (chunk : Int)
        (n : Nat) (i : Int) (st : SendState), writeErr st.written.length = none →
      ((sendLoopFrom writeErr topic payload iterations chunk (n + 1) i st).2
          ≠ some .divideByZero ↔ 10 ≤ iterations)) ∧
    (∀ chunk : Int, goDiv iterations chunk ≠ .error .divideByZero ↔ chunk ≠ 0) := by
  have hiff := interval_ne_zero_iff h0 hmax
  refine ⟨hiff, ?_, ?_, ?_, ?_⟩
  · intro x
    rw [← hiff]
    by_cases hz : interval iterations = 0
    · simp [goMod, hz]
    · simp [goMod, hz]
  · intro data st
    rw [← hiff]
    by_cases hz : interval iterations = 0
    · simp [onMessage, goMod, hz]
    · have hnp : (onMessage iterations data st).2 ≠ some .divideByZero := by
        unfold onMessage
        simp only [goMod_ok_of_ne_zero _ hz]
        split_ifs <;> simp
      exact iff_of_true hnp hz
  · intro writeErr topic payload chunk n i st hwr
    rw [← hiff]
    by_cases hz : interval iterations = 0
    · simp [sendLoopFrom, hwr, goMod, hz]
    · exact iff_of_true
        (sendLoopFrom_no_divideByZero writeErr topic payload iterations chunk hz _ _ _) hz
  · intro chunk
    by_cases hz : chunk = 0
    · simp [goDiv, hz]
    · simp [goDiv, hz]

/-- C8, witness: the default of 100 iterations. -/
theorem interval_division_safe_witness :
    (interval 100 ≠ 0 ↔ (10 : Int) ≤ 100) ∧
    (∀ x : Int, goMod x (interval 100) ≠ .error .divideByZero ↔ (10 : Int) ≤ 100) ∧
    (∀ (data : List UInt8) (st : RecvState),
      (onMessage 100 data st).2 ≠ some .divideByZero ↔ (10 : Int) ≤ 100) ∧
    (∀ (writeErr : Nat → Option String) (topic : String) (payload : List UInt8) (chunk : Int)
        (n : Nat) (i : Int) (st : SendState), writeErr st.written.length = none →
      ((sendLoopFrom writeErr topic payload 100 chunk (n + 1) i st).2
          ≠ some .divideByZero ↔ (10 : Int) ≤ 100)) ∧
    (∀ chunk : Int, goDiv 100 chunk ≠ .error .divideByZero ↔ chunk ≠ 0) :=
  interval_division_safe 100 (by decide) (by decide)

/-- C9: for `iterations >= 10` and a sequence of deliveries of 1024-byte
messages (no longer than an `int` can count), the callback never aborts, the
count after the `j`-th delivery is `j`, and what has been sent on `done` after
the `j`-th delivery is nothing while `j < iterations` and the single value
`true` from `j = iterations` on: completion is signalled exactly once, at
delivery number `iterations`, and never when fewer messages are delivered; the
receive `<-done` of the harness gets a value only once `iterations` messages
were delivered. -/
theorem deliver_count_done (iterations : Int) (h10 : 10 ≤ iterations)
    (hmax : iterations ≤ maxInt) (ds : List (List UInt8))
    (hsz : ∀ d ∈ ds, d.length = 1024) (hk : (ds.length : Int) ≤ maxInt)
    (j : Nat) (hj : j ≤ ds.length) :
    (deliver iterations (ds.take j) recvInit).2 = none ∧
    (deliver iterations (ds.take j) recvInit).1.count = j ∧
    (deliver iterations (ds.take j) recvInit).1.done
      = (if iterations ≤ j then [true] else []) ∧
    waitDone (deliver iterations (ds.take j) recvInit).1
      = (if iterations ≤ j then some true else none) := by
  have hi := (interval_ne_zero_iff (by omega) hmax).mpr h10
  have hlen : (ds.take j).length = j := by
    rw [List.length_take]
    omega
  have hsz2 : ∀ d ∈ ds.take j, d.length = 1024 := fun d hd => hsz d (List.mem_of_mem_take hd)
  obtain ⟨e1, e2, e3⟩ := deliver_sized iterations hi (ds.take j) hsz2 recvInit
    (by simp [recvInit]) (by simp only [recvInit, hlen]; omega)
  have hdone : (deliver iterations (ds.take j) recvInit).1.done
      = (if iterations ≤ j then [true] else []) := by
    rw [e3, hlen]
    simp only [recvInit, List.nil_append, zero_add]
    have h0 : (0 : Int) < iterations := by omega
    simp [h0]
  refine ⟨e1, ?_, hdone, ?_⟩
  · rw [e2, hlen]
    simp [recvInit]
  · unfold waitDone
    rw [hdone]
    split_ifs <;> rfl

/-- C9, witness: 10 iterations and 12 deliveries of the benchmark payload, read
after the 12th delivery. -/
theorem deliver_count_done_witness :
    (deliver 10 ((List.replicate 12 msg).take 12) recvInit).2 = none ∧
    (deliver 10 ((List.replicate 12 msg).take 12) recvInit).1.count = (12 : Nat) ∧
    (deliver 10 ((List.replicate 12 msg).take 12) recvInit).1.done
      = (if (10 : Int) ≤ (12 : Nat) then [true] else []) ∧
    waitDone (deliver 10 ((List.replicate 12 msg).take 12) recvInit).1
      = (if (10 : Int) ≤ (12 : Nat) then some true else none) :=
  deliver_count_done 10 (by decide) (by decide) (List.replicate 12 msg)
    (fun d hd => by rw [(List.mem_replicate.mp hd).2]; exact msg_length)
    (by decide) 12 (by decide)

/-! ## Theorems: `startBridge` -/

theorem setBrokersFrom_append {ρ : Type} (k : String) (pre suf : List (ConnectorConfig ρ)) :
    setBrokersFrom k suf.length pre.length (pre ++ suf)
      = pre ++ suf.map (fun c => { c with Brokers := [k] }) := by
  induction suf generalizing pre with
  | nil => simp [setBrokersFrom]
  | cons c cs ih =>
    have h1 : (pre ++ c :: cs)[pre.length]? = some c := by
      rw [List.getElem?_append_right (Nat.le_refl _)]
      simp
    have h2 : (pre ++ c :: cs).set pre.length { c with Brokers := [k] }
        = (pre ++ [{ c with Brokers := [k] }]) ++ cs := by simp
    rw [List.length_cons, setBrokersFrom, h1]
    simp only
    rw [h2]
    have h3 := ih (pre ++ [{ c with Brokers := [k] }])
    simp only [List.length_append, List.length_singleton] at h3
    rw [h3]
    simp

theorem setBrokersFrom_eq_map {ρ : Type} (k : String) (connections : List (ConnectorConfig ρ)) :
    setBrokersFrom k connections.length 0 connections
      = connections.map (fun c => { c with Brokers := [k] }) := by
  simpa using setBrokersFrom_append k [] connections

theorem startBridge_config {β ε ρ κ : Type} (api : BridgeAPI β ε ρ κ)
    (defaultConfig : BridgeConfig ρ κ) (natsURL kafkaHostPort : String)
    (connections : List (ConnectorConfig ρ)) :
    (startBridge api defaultConfig natsURL kafkaHostPort connections).config
      = { Logging := { Debug := true, Trace := true, Colors := false }
          Monitoring := { HTTPPort := -1 }
          NATS := { Servers := [natsURL], ConnectTimeout := 2000, ReconnectWait := 2000,
                    MaxReconnects := 5 }
          Connect := setBrokersFrom kafkaHostPort connections.length 0 connections
          rest := defaultConfig.rest } ∧
    (startBridge api defaultConfig natsURL kafkaHostPort connections).connections
      = setBrokersFrom kafkaHostPort connections.length 0 connections := by
  unfold startBridge
  simp only
  split
  · exact ⟨rfl, rfl⟩
  · split <;> exact ⟨rfl, rfl⟩

/-- C7: for every input list, `startBridge` sets `config.Connect` to a list of
the same length and order in which every entry has `Brokers = [kafkaHostPort]`
and every other field equal to the input entry's; the caller's slice holds the
same entries afterwards. -/
theorem startBridge_connect {β ε ρ κ : Type} (api : BridgeAPI β ε ρ κ)
    (defaultConfig : BridgeConfig ρ κ) (natsURL kafkaHostPort : String)
    (connections : List (ConnectorConfig ρ)) :
    (startBridge api defaultConfig natsURL kafkaHostPort connections).config.Connect.length
      = connections.length ∧
    (∀ (i : Nat) (c : ConnectorConfig ρ), connections[i]? = some c →
      (startBridge api defaultConfig natsURL kafkaHostPort connections).config.Connect[i]?
        = some { Type_ := c.Type_, Subject := c.Subject, Topic := c.Topic, GroupID := c.GroupID,
                 Brokers := [kafkaHostPort], rest := c.rest }) ∧
    (startBridge api defaultConfig natsURL kafkaHostPort connections).connections
      = (startBridge api defaultConfig natsURL kafkaHostPort connections).config.Connect := by
  obtain ⟨h1, h2⟩ := startBridge_config api defaultConfig natsURL kafkaHostPort connections
  rw [h1, h2, setBrokersFrom_eq_map]
  refine ⟨by simp, ?_, rfl⟩
  intro i c hc
  simp [List.getElem?_map, hc]

/-- C5: `startBridge` returns a bridge and no error exactly when both
`InitializeFromConfig` and `Start` succeed, and the bridge is then the started
one; when `InitializeFromConfig` fails it returns no bridge and that error,
having called neither `Start` nor `Stop`; when `Start` fails it returns no
bridge and the `Start` error after calling `Stop` exactly once, as the last
call, on the bridge that `Start` left. -/
theorem startBridge_result {β ε ρ κ : Type} (api : BridgeAPI β ε ρ κ)
    (defaultConfig : BridgeConfig ρ κ) (natsURL kafkaHostPort : String)
    (connections : List (ConnectorConfig ρ)) :
    ((startBridge api defaultConfig natsURL kafkaHostPort connections).bridge ≠ none ∧
        (startBridge api defaultConfig natsURL kafkaHostPort connections).err = none ↔
      (api.InitializeFromConfig api.NewNATSKafkaBridge
          (startBridge api defaultConfig natsURL kafkaHostPort connections).config).2 = none ∧
        (api.Start (api.InitializeFromConfig api.NewNATSKafkaBridge
          (startBridge api defaultConfig natsURL kafkaHostPort connections).config).1).2
          = none) ∧
    (∀ e : ε,
      (api.InitializeFromConfig api.NewNATSKafkaBridge
          (startBridge api defaultConfig natsURL kafkaHostPort connections).config).2 = some e →
      (startBridge api defaultConfig natsURL kafkaHostPort connections).bridge = none ∧
      (startBridge api defaultConfig natsURL kafkaHostPort connections).err = some e ∧
      (startBridge api defaultConfig natsURL kafkaHostPort connections).calls
        = [.initializeFromConfig] ∧
      (startBridge api defaultConfig natsURL kafkaHostPort connections).final
        = (api.InitializeFromConfig api.NewNATSKafkaBridge
            (startBridge api defaultConfig natsURL kafkaHostPort connections).config).1) ∧
    (∀ e : ε,
      (api.InitializeFromConfig api.NewNATSKafkaBridge
          (startBridge api defaultConfig natsURL kafkaHostPort connections).config).2 = none →
      (api.Start (api.InitializeFromConfig api.NewNATSKafkaBridge
          (startBridge api defaultConfig natsURL kafkaHostPort connections).config).1).2
          = some e →
      (startBridge api defaultConfig natsURL kafkaHostPort connections).bridge = none ∧
      (startBridge api defaultConfig natsURL kafkaHostPort connections).err = some e ∧
      (startBridge api defaultConfig natsURL kafkaHostPort connections).calls
        = [.initializeFromConfig, .start, .stop] ∧
      (startBridge api defaultConfig natsURL kafkaHostPort connections).calls.count .stop = 1 ∧
      (startBridge api defaultConfig natsURL kafkaHostPort connections).final
        = api.Stop (api.Start (api.InitializeFromConfig api.NewNATSKafkaBridge
            (startBridge api defaultConfig natsURL kafkaHostPort connections).config).1).1) ∧
    ((api.InitializeFromConfig api.NewNATSKafkaBridge
          (startBridge api defaultConfig natsURL kafkaHostPort connections).config).2 = none →
      (api.Start (api.InitializeFromConfig api.NewNATSKafkaBridge
          (startBridge api defaultConfig natsURL kafkaHostPort connections).config).1).2
          = none →
      (startBridge api defaultConfig natsURL kafkaHostPort connections).bridge
        = some (api.Start (api.InitializeFromConfig api.NewNATSKafkaBridge
            (startBridge api defaultConfig natsURL kafkaHostPort connections).config).1).1 ∧
      (startBridge api defaultConfig natsURL kafkaHostPort connections).calls
        = [.initializeFromConfig, .start] ∧
      (startBridge api defaultConfig natsURL kafkaHostPort connections).final
        = (api.Start (api.InitializeFromConfig api.NewNATSKafkaBridge
            (startBridge api defaultConfig natsURL kafkaHostPort connections).config).1).1) := by
  rw [(startBridge_config api defaultConfig natsURL kafkaHostPort connections).1]
  unfold startBridge
  simp only
  split
  next b1 e1 h1 =>
    simp only [h1]
    simp
  next b1 h1 =>
    simp only [h1]
    split
    next b2 e2 h2 =>
      simp only [h2]
      simp
    next b2 h2 =>
      simp only [h2]
      simp

/-- C5, witness: on a bridge whose `Start` fails, the calls made are
`InitializeFromConfig`, `Start`, `Stop`, and the error of `Start` comes back
with no bridge. -/
theorem startBridge_result_witness :
    (startBridge (recordingBridge none (some "no broker")) sampleConfig
        "nats://localhost:4222" "localhost:9092" sampleConnect).bridge = none ∧
    (startBridge (recordingBridge none (some "no broker")) sampleConfig
        "nats://localhost:4222" "localhost:9092" sampleConnect).err = some "no broker" ∧
    (startBridge (recordingBridge none (some "no broker")) sampleConfig
        "nats://localhost:4222" "localhost:9092" sampleConnect).calls
      = [.initializeFromConfig, .start, .stop] ∧
    (startBridge (recordingBridge none (some "no broker")) sampleConfig
        "nats://localhost:4222" "localhost:9092" sampleConnect).calls.count .stop = 1 ∧
    (startBridge (recordingBridge none (some "no broker")) sampleConfig
        "nats://localhost:4222" "localhost:9092" sampleConnect).final
      = [.initializeFromConfig, .start, .stop] :=
  (startBridge_result (recordingBridge none (some "no broker")) sampleConfig
    "nats://localhost:4222" "localhost:9092" sampleConnect).2.2.1 "no broker" rfl rfl

/-! ## Theorems: the connector engine -/

theorem sum_length_of_all_eq (p : List UInt8) (ps : List (List UInt8)) (h : ∀ q ∈ ps, q = p) :
    (ps.map List.length).sum = ps.length * p.length := by
  induction ps with
  | nil => simp
  | cons a as ih =>
    have ha : a = p := h a (by simp)
    have hrest : ∀ q ∈ as, q = p := fun q hq => h q (by simp [hq])
    rw [List.map_cons, List.sum_cons, ih hrest, ha, List.length_cons]
    ring

/-- A running connector that meets only clean events stays running, keeps its
connection counters, and counts and publishes every message once. -/
theorem run_clean (es : List Event) (hclean : ∀ e ∈ es, e.clean = true) (c : Connector)
    (hc : c.state = .Running) :
    (c.run es).1.state = .Running ∧ (c.run es).1.route = c.route ∧
    (c.run es).1.stats
      = { MessagesIn := c.stats.MessagesIn + (Event.payloads es).length
          MessagesOut := c.stats.MessagesOut + (Event.payloads es).length
          BytesIn := c.stats.BytesIn + ((Event.payloads es).map List.length).sum
          BytesOut := c.stats.BytesOut + ((Event.payloads es).map List.length).sum
          Connects := c.stats.Connects
          Disconnects := c.stats.Disconnects
          Connected := c.stats.Connected } ∧
    (c.run es).2 = (Event.payloads es).map (fun p => { address := c.route.destAddress, data := p }) := by
  induction es generalizing c with
  | nil => simp [Connector.run, Event.payloads, hc]
  | cons e es ih =>
    have hrest : ∀ x ∈ es, x.clean = true := fun x hx => hclean x (by simp [hx])
    have he : e.clean = true := hclean e (by simp)
    cases e with
    | message payload res =>
      cases res with
      | acked =>
        have hstep : (c.step (.message payload .acked)).1.state = .Running := by
          simp [Connector.step, Connector.forward, hc]
        obtain ⟨i1, i2, i3, i4⟩ := ih hrest _ hstep
        simp only [Connector.run, Event.payloads]
        refine ⟨i1, ?_, ?_, ?_⟩
        · rw [i2]
          simp [Connector.step, Connector.forward, hc]
        · rw [i3]
          simp [Connector.step, Connector.forward, hc, Nat.add_assoc, Nat.add_comm 1]
        · rw [i4]
          simp [Connector.step, Connector.forward, hc]
      | connectionLost => simp [Event.clean] at he
      | rejected => simp [Event.clean] at he
    | check sa da =>
      have hsd : (sa && da) = true := by simpa [Event.clean] using he
      have hstep : c.step (.check sa da) = (c, []) := by
        simp [Connector.step, Connector.checkConnections, hc, hsd]
      simp only [Connector.run, Event.payloads, hstep, List.nil_append]
      exact ih hrest c hc

/-- C1: a connector that was started successfully and then forwarded `N`
messages of payload `p` with no induced failure (every publish acknowledged,
every health check finding both handles alive) is running, and its entry in
`SafeStats()` has MessagesIn = MessagesOut = N, BytesIn = BytesOut = N * len(p),
Connects = 1, Disconnects = 0 and Connected = true. -/
theorem safeStats_after_forwarding (r : RouteConfig) (p : List UInt8) (es : List Event)
    (hclean : ∀ e ∈ es, e.clean = true) (hp : ∀ q ∈ Event.payloads es, q = p)
    (b : Bridge) (i : Nat)
    (hb : b.connectors[i]? = some (((Connector.create r).start true).run es).1) :
    (((Connector.create r).start true).run es).1.state = .Running ∧
    b.SafeStats[i]?
      = some { MessagesIn := (Event.payloads es).length
               MessagesOut := (Event.payloads es).length
               BytesIn := (Event.payloads es).length * p.length
               BytesOut := (Event.payloads es).length * p.length
               Connects := 1
               Disconnects := 0
               Connected := true } := by
  have hstart : ((Connector.create r).start true).state = .Running := rfl
  obtain ⟨h1, _, h3, _⟩ := run_clean es hclean _ hstart
  refine ⟨h1, ?_⟩
  unfold Bridge.SafeStats
  rw [List.getElem?_map, hb, Option.map_some', h3, sum_length_of_all_eq p _ hp]
  simp [Connector.start, Connector.create, ConnectionStats.zero]

/-- C1, witness: the test's case, one acknowledged message "hello world" (11
bytes) after a health check, in a bridge with one connector. -/
theorem safeStats_after_forwarding_witness :
    (((Connector.create routeA).start true).run
        [.check true true, .message helloWorld .acked]).1.state = .Running ∧
    (Bridge.SafeStats { connectors := [(((Connector.create routeA).start true).run
        [.check true true, .message helloWorld .acked]).1] })[0]?
      = some { MessagesIn := (Event.payloads [.check true true, .message helloWorld .acked]).length
               MessagesOut := (Event.payloads [.check true true, .message helloWorld .acked]).length
               BytesIn := (Event.payloads [.check true true, .message helloWorld .acked]).length
                            * helloWorld.length
               BytesOut := (Event.payloads [.check true true, .message helloWorld .acked]).length
                            * helloWorld.length
               Connects := 1
               Disconnects := 0
               Connected := true } :=
  safeStats_after_forwarding routeA helloWorld [.check true true, .message helloWorld .acked]
    (by decide) (by decide) _ 0 rfl

/-- With one running connector, every payload sent to its source address is
counted and published once, whether or not the route has a consumer group. -/
theorem sendAll_single (route : RouteConfig) (st : ConnectionStats) (ps : List (List UInt8)) :
    Bridge.sendAll { connectors := [{ route := route, state := .Running, stats := st }] }
        route.sourceAddress (fun _ => .acked) ps
      = ({ connectors := [{ route := route, state := .Running,
                            stats := { MessagesIn := st.MessagesIn + ps.length
                                       MessagesOut := st.MessagesOut + ps.length
                                       BytesIn := st.BytesIn + (ps.map List.length).sum
                                       BytesOut := st.BytesOut + (ps.map List.length).sum
                                       Connects := st.Connects
                                       Disconnects := st.Disconnects
                                       Connected := st.Connected } }] },
         ps.map (fun p => { address := route.destAddress, data := p })) := by
  induction ps generalizing st with
  | nil => simp [Bridge.sendAll]
  | cons p ps ih =>
    have hstep : consumeFrom route.sourceAddress p (fun _ => PublishResult.acked) []
          [{ route := route, state := .Running, stats := st }]
        = ([{ route := route, state := .Running,
              stats := { MessagesIn := st.MessagesIn + 1
                         MessagesOut := st.MessagesOut + 1
                         BytesIn := st.BytesIn + p.length
                         BytesOut := st.BytesOut + p.length
                         Connects := st.Connects
                         Disconnects := st.Disconnects
                         Connected := st.Connected } }],
           [{ address := route.destAddress, data := p }]) := by
      cases hg : route.consumerGroup <;> simp [consumeFrom, Connector.forward, hg]
    rw [Bridge.sendAll]
    simp only [hstep]
    rw [ih]
    simp [Nat.add_assoc, Nat.add_comm 1]

theorem received_map (subject : String) (ps : List (List UInt8)) :
    received subject (ps.map (fun p => { address := subject, data := p })) = ps := by
  induction ps with
  | nil => rfl
  | cons p ps ih =>
    simp only [received, List.map_cons] at ih ⊢
    simp [ih]

/-- What a scenario with a valid route observes: every payload delivered once,
in order and unchanged, and the matching stats. -/
theorem scenario_eq (r : RouteConfig) (hv : r.valid = true) (check : Bool)
    (ps : List (List UInt8)) :
    scenario r check ps
      = .ok { deliveries := ps
              stats := [{ MessagesIn := ps.length, MessagesOut := ps.length
                          BytesIn := (ps.map List.length).sum
                          BytesOut := (ps.map List.length).sum
                          Connects := 1, Disconnects := 0, Connected := true }] } := by
  have hstart : ∀ b : Bool, (if b then
        Bridge.checkConnections { connectors := [(Connector.create r).start true] }
          (fun _ => (true, true))
      else { connectors := [(Connector.create r).start true] })
      = { connectors := [{ route := r, state := .Running,
                           stats := { ConnectionStats.zero with Connects := 1,
                                                                Connected := true } }] } := by
    intro b
    cases b <;> rfl
  unfold scenario
  simp only [Bridge.create, List.all_cons, List.all_nil, hv, Bool.and_true, if_true,
    Bridge.start, List.map_cons, List.map_nil]
  rw [hstart, sendAll_single]
  simp [received_map, Bridge.SafeStats, ConnectionStats.zero]

/-- C2: a payload sent once to the source address of a valid route is
delivered to a subscriber of the route's destination address exactly once and
byte for byte: the deliveries are the one-element list `[p]`; and what a running
connector publishes for a payload `p` is received as `[p]`. -/
theorem scenario_delivers_payload (r : RouteConfig) (hv : r.valid = true) (check : Bool)
    (p : List UInt8) :
    Except.map Observed.deliveries (scenario r check [p]) = .ok [p] ∧
    (∀ c : Connector, c.state = .Running →
      received c.route.destAddress (c.forward p .acked).2 = [p]) := by
  refine ⟨?_, ?_⟩
  · rw [scenario_eq r hv check [p]]
    rfl
  · intro c hc
    simp [Connector.forward, hc, received]

/-- C2, witness: "hello world" sent to "topicA" on the route of the test arrives
once, unchanged, at the subscriber of "subjA". -/
theorem scenario_delivers_payload_witness :
    Except.map Observed.deliveries (scenario routeA true [helloWorld]) = .ok [helloWorld] ∧
    (∀ c : Connector, c.state = .Running →
      received c.route.destAddress (c.forward helloWorld .acked).2 = [helloWorld]) :=
  scenario_delivers_payload routeA (by decide) true helloWorld

/-- C3: for every valid route, group name and payload, the scenario with the
consumer group set observes what the scenario without a group observes: one
delivery of the identical payload and the stats MessagesIn = MessagesOut = 1,
BytesIn = BytesOut = len(payload), Connects = 1, Disconnects = 0, Connected =
true. -/
theorem scenario_group_same (r : RouteConfig) (hv : r.valid = true) (g : String)
    (check1 check2 : Bool) (p : List UInt8) :
    scenario { r with consumerGroup := some g } check1 [p]
      = scenario { r with consumerGroup := none } check2 [p] ∧
    scenario { r with consumerGroup := some g } check1 [p]
      = .ok { deliveries := [p]
              stats := [{ MessagesIn := 1, MessagesOut := 1, BytesIn := p.length
                          BytesOut := p.length, Connects := 1, Disconnects := 0
                          Connected := true }] } := by
  have hv1 : RouteConfig.valid { r with consumerGroup := some g } = true := hv
  have hv2 : RouteConfig.valid { r with consumerGroup := none } = true := hv
  rw [scenario_eq _ hv1 check1 [p], scenario_eq _ hv2 check2 [p]]
  simp

/-- C3, witness: the two tests, the route with the group "groupA" and no
health check against the route without a group and with one. -/
theorem scenario_group_same_witness :
    scenario { routeA with consumerGroup := some "groupA" } false [helloWorld]
      = scenario { routeA with consumerGroup := none } true [helloWorld] ∧
    scenario { routeA with consumerGroup := some "groupA" } false [helloWorld]
      = .ok { deliveries := [helloWorld]
              stats := [{ MessagesIn := 1, MessagesOut := 1, BytesIn := helloWorld.length
                          BytesOut := helloWorld.length, Connects := 1, Disconnects := 0
                          Connected := true }] } :=
  scenario_group_same routeA (by decide) "groupA" false true helloWorld

/-! ## Evaluations -/

/-- Go's division and remainder truncate toward zero and wrap at the ends of
the range. -/
theorem goDiv_goMod_values :
    goDiv 1000 10 = .ok 100 ∧ goDiv (-7) 2 = .ok (-3) ∧ goMod (-7) 2 = .ok (-1) ∧
    goDiv minInt (-1) = .ok minInt ∧ goDiv 5 0 = .error .divideByZero := by
  decide

/-- The test's payload has 11 bytes, and Scenario A observes one delivery and
the stats of the specification. -/
theorem scenario_A_value :
    helloWorld.length = 11 ∧
    scenario routeA true [helloWorld]
      = .ok { deliveries := [helloWorld]
              stats := [{ MessagesIn := 1, MessagesOut := 1, BytesIn := 11, BytesOut := 11
                          Connects := 1, Disconnects := 0, Connected := true }] } := by
  decide

set_option maxRecDepth 100000 in
/-- A delivery of the wrong size ends the process with the line of
`log.Fatalf`, which prints the two sizes. -/
theorem onMessage_wrong_size :
    (onMessage 100 (bytesOf "hello") recvInit).2
      = some (.fatal "received message that is the wrong size 5 != 1024") := by
  decide

end NatsKafka
